import Mathlib

/-!
Shallow embedding of the computer-use agent repository:
`computers/docker_computer.py` (the concrete remote-desktop driver) and
`agent/agent.py` (action normalization, per-action handling, and the
conversation loop).  Side-effecting driver calls are modelled as emission
of an ordered list of `XEvent`s, one per xdotool command the Python code
issues; the conversation loop is modelled as a trace of remote calls and
yielded events driven by a scripted oracle of remote responses.
-/

namespace ComputerUse

/-- A point of a drag path (`{"x": ..., "y": ...}` in `agent.py`). -/
structure Point where
  x : Int
  y : Int
deriving Repr, DecidableEq

/-- One observable effect of a driver method: each constructor corresponds to
one xdotool command (or `time.sleep`) issued by `DockerComputer`. -/
inductive XEvent where
  /-- Command `xdotool mousemove x y`. -/
  | mouseMove (x y : Int)
  /-- Command `xdotool mousedown b`. -/
  | mouseDown (b : Nat)
  /-- Command `xdotool mouseup b`. -/
  | mouseUp (b : Nat)
  /-- Command `xdotool click b` (also used for wheel buttons 4/5). -/
  | click (b : Nat)
  /-- Command `xdotool key combo`. -/
  | key (combo : String)
  /-- Command `xdotool type` with the already shell-escaped literal. -/
  | typeText (s : String)
  /-- Call of `time.sleep` for the given number of milliseconds. -/
  | sleep (ms : Nat)
deriving Repr, DecidableEq

/-- The `button_map = {"left": 1, "middle": 2, "right": 3}` of
`DockerComputer.click`. -/
def buttonMap : List (String × Nat) :=
  [("left", 1), ("middle", 2), ("right", 3)]

/-- Model of `button_map.get(button, 1)`: unknown button names fall back to 1. -/
def buttonToNative (button : String) : Nat :=
  (buttonMap.lookup button).getD 1

/-- Model of `DockerComputer.click`: one command `mousemove x y click b`. -/
def clickEvents (x y : Int) (button : String) : List XEvent :=
  [.mouseMove x y, .click (buttonToNative button)]

/-- Model of `DockerComputer.double_click`: `mousemove x y click --repeat 2 1`. -/
def doubleClickEvents (x y : Int) : List XEvent :=
  [.mouseMove x y, .click 1, .click 1]

/-- The `for _ in range(clicks): xdotool click button` loop of
`DockerComputer.scroll`. -/
def scrollClickLoop (button : Nat) : Nat → List XEvent
  | 0 => []
  | n + 1 => .click button :: scrollClickLoop button n

/-- Model of `DockerComputer.scroll`: move the pointer, then `abs(scroll_y)` wheel
clicks, button 4 when `scroll_y < 0` else button 5; `scroll_x` is unused. -/
def scrollEvents (x y : Int) (scroll_x scroll_y : Int) : List XEvent :=
  let _ := scroll_x
  let clicks := scroll_y.natAbs
  let button := if scroll_y < 0 then 4 else 5
  .mouseMove x y :: scrollClickLoop button clicks

/-- The single-quote character, written via its code point. -/
def squoteChar : Char := Char.ofNat 39

/-- A single-quote string. -/
def squote : String := String.singleton squoteChar

/-- Character-level semantics of the Python replace call in
`DockerComputer.type`: every single quote becomes
quote-backslash-quote-quote, all other characters are kept. -/
def escapeChars (cs : List Char) : List Char :=
  (cs.map (fun c => if c = squoteChar then [squoteChar, '\\', squoteChar, squoteChar] else [c])).flatten

/-- POSIX shell escaping of a single-quoted literal as done by the replace
call in `DockerComputer.type`. -/
def escapeSingle (s : String) : String :=
  String.mk (escapeChars s.data)

/-- The newline string used by `text.split("\n")`. -/
def nlStr : String := String.singleton (Char.ofNat 10)

/-- Character-level semantics of Python `text.split(sep)` for a one-character
separator: `"".split(sep) = [""]`, and a separator ends the current group. -/
def splitOnChar (sep : Char) : List Char → List (List Char)
  | [] => [[]]
  | c :: cs =>
      let r := splitOnChar sep cs
      if c = sep then [] :: r
      else
        match r with
        | [] => [[c]]
        | g :: gs => (c :: g) :: gs

/-- Model of the split-on-newline call as a list of lines. -/
def splitLines (s : String) : List String :=
  (splitOnChar (Char.ofNat 10) s.data).map String.mk

/-- Python `"\n" in text`. -/
def containsNl (s : String) : Bool :=
  s.data.contains (Char.ofNat 10)

/-- Body of the `for i, line in enumerate(lines)` loop of
`DockerComputer.type` for one line with `i > 0` ahead: type the line only
when it is nonempty, then sleep 100ms. -/
def typeLineEvents (line : String) : List XEvent :=
  if line = "" then [] else [.typeText (escapeSingle line), .sleep 100]

/-- The multi-line branch of `DockerComputer.type`: the first line gets no
Return; every later line is preceded by `xdotool key Return` plus a 100ms
sleep. -/
def typeLinesEvents : List String → List XEvent
  | [] => []
  | l :: ls =>
      typeLineEvents l ++
      (ls.map (fun l2 => [XEvent.key "Return", XEvent.sleep 100] ++ typeLineEvents l2)).flatten

/-- Model of `DockerComputer.type`: split on newlines when one is present, otherwise
type the whole text as one escaped literal (with no trailing sleep). -/
def typeEvents (text : String) : List XEvent :=
  if containsNl text then
    typeLinesEvents (splitLines text)
  else
    [.typeText (escapeSingle text)]

/-- Test for a Return keypress event. -/
def isReturn (e : XEvent) : Bool :=
  match e with
  | .key s => s == "Return"
  | _ => false

/-- Projection of an event to its typed literal, if it is one. -/
def typedOf (e : XEvent) : Option String :=
  match e with
  | .typeText s => some s
  | _ => none

/-- Observation function on a driver trace: the number of Return keypresses
issued. -/
def countReturn (evs : List XEvent) : Nat :=
  evs.countP isReturn

/-- Observation function on a driver trace: the typed literals, in order. -/
def typedLiterals (evs : List XEvent) : List String :=
  evs.filterMap typedOf

/-- The fixed key translation table of `DockerComputer.keypress`. -/
def keyMapping : List (String × String) :=
  [("ENTER", "Return"), ("LEFT", "Left"), ("RIGHT", "Right"), ("UP", "Up"),
   ("DOWN", "Down"), ("ESC", "Escape"), ("SPACE", "space"),
   ("BACKSPACE", "BackSpace"), ("TAB", "Tab"), ("CTRL", "ctrl"),
   ("ALT", "alt"), ("SHIFT", "shift"), ("SUPER", "super"), ("META", "meta"),
   ("WIN", "super"), ("DELETE", "Delete"), ("HOME", "Home"), ("END", "End"),
   ("PAGEUP", "Page_Up"), ("PAGEDOWN", "Page_Down")]

/-- Model of `mapping.get(key, key)`: translate one logical key name, unknown names
pass through unchanged. -/
def mapKey (k : String) : String :=
  (keyMapping.lookup k).getD k

/-- Model of `DockerComputer.keypress`: map every key, join with "+", issue a single
`xdotool key` command. -/
def keypressEvents (keys : List String) : List XEvent :=
  [.key (String.intercalate "+" (keys.map mapKey))]

/-- Model of `DockerComputer.drag`: empty path does nothing; otherwise one command
`mousemove x0 y0 mousedown 1`, one `mousemove` per later point, then a
coordinate-free `mouseup 1`. -/
def dragEvents : List Point → List XEvent
  | [] => []
  | p0 :: rest =>
      [XEvent.mouseMove p0.x p0.y, XEvent.mouseDown 1] ++
      (rest.map (fun p => [XEvent.mouseMove p.x p.y])).flatten ++
      [XEvent.mouseUp 1]

/-- One step of pointer tracking: a `mouseMove` updates the position, every
other event leaves it unchanged. -/
def pointerStep (acc : Option (Int × Int)) (e : XEvent) : Option (Int × Int) :=
  match e with
  | .mouseMove x y => some (x, y)
  | _ => acc

/-- The pointer position after a list of events: the coordinates of the last
`mouseMove`, if any. -/
def finalPointer (evs : List XEvent) : Option (Int × Int) :=
  evs.foldl pointerStep none

/-- Model of `DockerComputer.wait(ms)`: a sleep of ms milliseconds. -/
def waitEvents (ms : Nat) : List XEvent :=
  [.sleep ms]

/-- The probe loop of `DockerComputer._find_available_port`: `occ p = true`
models connect succeeding on port `p` (port occupied) or the probe erroring,
both of which make the Python loop advance to `p + 1`. -/
def findPortLoop (occ : Nat → Bool) : Nat → Nat → Nat
  | 0, port => port
  | n + 1, port => if occ port then findPortLoop occ n (port + 1) else port

/-- Model of `DockerComputer._find_available_port(preferred_port)` with
`max_attempts = 10`. -/
def findAvailablePort (occ : Nat → Bool) (preferred : Nat) : Nat :=
  findPortLoop occ 10 preferred

/-- The ports actually probed by the loop, in order. -/
def probedPorts (occ : Nat → Bool) : Nat → Nat → List Nat
  | 0, _ => []
  | n + 1, port =>
      port :: (if occ port then probedPorts occ n (port + 1) else [])

/-- The `keys` attribute of a keypress action: `Agent.handle_item` checks
`isinstance(keys, list)` and wraps a bare key name into a one-element list. -/
inductive KeysField where
  | bare (k : String)
  | list (ks : List String)
deriving Repr, DecidableEq

/-- The nested `action.params` object probed by the wait branch of
`Agent.handle_item`; a missing attribute is `none`. -/
structure NestedParams where
  ms : Option Int := none
  time : Option Int := none
deriving Repr, DecidableEq

/-- A loosely-typed action request from the remote model, as probed with
`hasattr`/`getattr` by `Agent.handle_item`; a field the object lacks is
`none`. -/
structure RawAction where
  type : String
  x : Option Int := none
  y : Option Int := none
  button : Option String := none
  text : Option String := none
  keys : Option KeysField := none
  scroll_x : Option Int := none
  scroll_y : Option Int := none
  path : Option (List Point) := none
  ms : Option Int := none
  time : Option Int := none
  params : Option NestedParams := none
deriving Repr, DecidableEq

/-- The validated `params` dictionary `Agent.handle_item` builds, one shape
per supported action kind. -/
inductive NormalizedAction where
  | click (x y : Int) (button : String)
  | double_click (x y : Int)
  | typeText (text : String)
  | keypress (keys : List String)
  | scroll (x y scroll_x scroll_y : Int)
  | drag (path : List Point)
  | wait (ms : Int)
  | screenshot
deriving Repr, DecidableEq

/-- Python raises `AttributeError` on reading an attribute the object lacks;
its message names the attribute and the runtime class of the loosely-typed
request object, neither of which is the action kind. -/
def attrError (attr : String) : String :=
  "object has no attribute " ++ attr

/-- The wait branch of `Agent.handle_item`: the `if/elif` chain tries
`action.params.ms`, then `action.ms`, then `action.params.time`, then
`action.time`, and defaults to 1000. -/
def waitMs (a : RawAction) : Int :=
  match a.params with
  | some p =>
      match p.ms with
      | some m => m
      | none =>
          match a.ms with
          | some m => m
          | none =>
              match p.time with
              | some t => t
              | none => match a.time with | some t => t | none => 1000
  | none =>
      match a.ms with
      | some m => m
      | none => match a.time with | some t => t | none => 1000

/-- The wait precedence as worded by the specification under check: direct
`ms` first, then nested `params.ms`, then direct `time`, then nested
`params.time`, defaulting to 1000.  Written from the words of the spec, for
comparison with `waitMs` above. -/
def waitMsSpecDirectFirst (a : RawAction) : Int :=
  (((a.ms.orElse (fun _ => a.params.bind fun p => p.ms)).orElse
      (fun _ => a.time)).orElse
      (fun _ => a.params.bind fun p => p.time)).getD 1000

/-- The precedence the code actually implements, written declaratively as an
option chain: nested `params.ms` first, then direct `ms`, then nested
`params.time`, then direct `time`, defaulting to 1000. -/
def waitMsSpecNestedFirst (a : RawAction) : Int :=
  ((((a.params.bind fun p => p.ms).orElse (fun _ => a.ms)).orElse
      (fun _ => a.params.bind fun p => p.time)).orElse
      (fun _ => a.time)).getD 1000

/-- The parameter-extraction section of `Agent.handle_item` (the large
`if action_type == ...` chain): produce the validated `params` or the
message of the exception the Python code raises. -/
def extractParams (a : RawAction) : Except String NormalizedAction :=
  if a.type = "click" then
    match a.x, a.y with
    | some x, some y => .ok (.click x y (a.button.getD "left"))
    | _, _ => .error "Could not extract coordinates for click action"
  else if a.type = "type" then
    match a.text with
    | some t => .ok (.typeText t)
    | none => .error "Could not extract text for type action"
  else if a.type = "keypress" then
    match a.keys with
    | some (.bare k) => .ok (.keypress [k])
    | some (.list ks) => .ok (.keypress ks)
    | none => .error "Could not extract keys for keypress action"
  else if a.type = "scroll" then
    match a.scroll_x, a.scroll_y with
    | some sx, some sy =>
        match a.x with
        | none => .error (attrError "x")
        | some x =>
            match a.y with
            | none => .error (attrError "y")
            | some y => .ok (.scroll x y sx sy)
    | _, _ => .error "Could not extract scroll parameters"
  else if a.type = "double_click" then
    match a.x, a.y with
    | some x, some y => .ok (.double_click x y)
    | _, _ => .error "Could not extract coordinates for double_click action"
  else if a.type = "drag" then
    match a.path with
    | some [] => .error "Could not extract path for drag action"
    | some ps => .ok (.drag ps)
    | none => .error "Could not extract path for drag action"
  else if a.type = "wait" then
    .ok (.wait (waitMs a))
  else if a.type = "screenshot" then
    .ok .screenshot
  else
    .error ("Unknown action type: " ++ a.type)

/-- Dispatch of a normalized action to the driver
(`method = getattr(self.computer, action_type); method(**params)`),
modelled as the emitted event list. -/
def execAction (na : NormalizedAction) : List XEvent :=
  match na with
  | .click x y b => clickEvents x y b
  | .double_click x y => doubleClickEvents x y
  | .typeText t => typeEvents t
  | .keypress ks => keypressEvents ks
  | .scroll x y sx sy => scrollEvents x y sx sy
  | .drag ps => dragEvents ps
  | .wait ms => waitEvents ms.toNat
  | .screenshot => []

/-- One pending safety check; `message` is probed with
`getattr(check, "message", "Safety check with no message")`. -/
structure SafetyCheck where
  message : Option String := none
deriving Repr, DecidableEq

/-- The message text `Agent.handle_item` associates to a check. -/
def checkMessage (c : SafetyCheck) : String :=
  c.message.getD "Safety check with no message"

/-- The `for check in pending_checks` loop: the first check whose message the
policy callback declines, if any. -/
def findRefused (cb : String → Bool) : List SafetyCheck → Option String
  | [] => none
  | c :: rest =>
      let m := checkMessage c
      if cb m then findRefused cb rest else some m

/-- The error message raised on a declined safety check. -/
def safetyErrMsg (m : String) : String :=
  "Safety check failed: " ++ m ++ ". Cannot continue with unacknowledged safety checks."

/-- A `computer_call` output item: correlation id, loosely-typed action, and
pending safety checks. -/
structure ComputerCallItem where
  call_id : String
  action : RawAction
  pending_safety_checks : List SafetyCheck := []
deriving Repr, DecidableEq

/-- The `computer_call_output` dictionary returned to the model. -/
structure CallOutputData where
  call_id : String
  acknowledged_safety_checks : List SafetyCheck
  image_url : String
deriving Repr, DecidableEq

/-- Model of `Agent.handle_item` for the linux (non-browser) environment of
`DockerComputer`: extract parameters, execute the action (whose driver
events are recorded in the result), take a screenshot (`shot` models the
string the computer returns), run the safety-check loop, and build the
`computer_call_output`; any raised exception becomes `.error` with the
exception message. -/
def handleItem (cb : String → Bool) (shot : String) (c : ComputerCallItem) :
    Except String (CallOutputData × List XEvent × String × NormalizedAction) :=
  match extractParams c.action with
  | .error e => .error e
  | .ok na =>
      let evs := execAction na
      match findRefused cb c.pending_safety_checks with
      | some m => .error (safetyErrMsg m)
      | none =>
          .ok ({ call_id := c.call_id,
                 acknowledged_safety_checks := c.pending_safety_checks,
                 image_url := "data:image/png;base64," ++ shot },
               evs, c.action.type, na)

/-- A concrete computer call with one pending safety check, used in closed
instances below. -/
def sampleUnsafeCall : ComputerCallItem :=
  { call_id := "call1", action := { type := "screenshot" },
    pending_safety_checks := [{ message := some "Download file" }] }

/-- An entry of the `items` list `run_conversation` sends to the model:
either a role/content message or a `computer_call_output`. -/
inductive Item where
  | message (role : String) (content : String)
  | callOutput (data : CallOutputData)
deriving Repr, DecidableEq

/-- One item of the `output` of a remote response: an assistant message (its
`content[0].text`), a reasoning item (its summary lines), or a computer
call. -/
inductive OutputItem where
  | assistant (content : String)
  | reasoning (summary : List String)
  | computerCall (c : ComputerCallItem)
deriving Repr, DecidableEq

/-- An event yielded by the `run_conversation` generator. -/
inductive TurnEvent where
  | assistantMsg (content : String)
  | reasoningNote (content : String)
  | actionTaken (kind : String) (na : NormalizedAction)
deriving Repr, DecidableEq

/-- The observable trace of a conversation run: every invocation of
`self.client.responses.create` (with the `input` items it was given) and
every yielded event, in order. -/
inductive TraceEntry where
  | remoteCall (input : List Item)
  | yielded (e : TurnEvent)
deriving Repr, DecidableEq

/-- The synthetic user item appended when the stop callback fires. -/
def stopRequestItem : Item :=
  .message "user" "Operation stopped by user. No further actions required until user input."

/-- The final message yielded after the flush exchange. -/
def stoppedMsg : String := "Conversation stopped by user."

/-- Message shape `run_conversation` uses when it wraps any exception into one terminal assistant
message: `"An error occurred: Error during conversation: " + str(e)`. -/
def errWrap (e : String) : String :=
  "An error occurred: Error during conversation: " ++ e

/-- The `for item in response.output` loop of `run_conversation`: returns
the yields made so far, the updated `items` buffer, the
`continue_conversation` flag, and the message of an exception raised by
`handle_item`, if one aborted the loop. -/
def processOutput (cb : String → Bool) (shot : String) :
    List OutputItem → List Item → Bool →
    List TraceEntry × List Item × Bool × Option String
  | [], items, cont => ([], items, cont, none)
  | .assistant c :: rest, items, cont =>
      let (t, i, b, e) := processOutput cb shot rest items cont
      (.yielded (.assistantMsg c) :: t, i, b, e)
  | .reasoning s :: rest, items, cont =>
      let (t, i, b, e) := processOutput cb shot rest items cont
      (.yielded (.reasoningNote (String.intercalate nlStr s)) :: t, i, b, e)
  | .computerCall cc :: rest, items, cont =>
      match handleItem cb shot cc with
      | .error msg => ([], items, cont, some msg)
      | .ok (out, _evs, kind, na) =>
          let (t, i, b, e) := processOutput cb shot rest (items ++ [.callOutput out]) true
          (.yielded (.actionTaken kind na) :: t, i, b, e)

/-- The `while continue_conversation` loop of `run_conversation`, driven by
a scripted oracle of remote outcomes (one list entry per
`responses.create` call; an exhausted oracle means the transport raises).
`stop k` is the value of `should_stop_callback()` at the k-th stop
checkpoint.  Fuel bounds the iteration count; each iteration consumes one
oracle entry, so `oracle.length + 1` fuel always suffices. -/
def runLoop (cb : String → Bool) (shot : String) (stop : Nat → Bool) :
    Nat → List (Except String (List OutputItem)) → List Item → Nat →
    List TraceEntry
  | 0, _, _, _ => []
  | _ + 1, [], items, _ =>
      [.remoteCall items, .yielded (.assistantMsg (errWrap "transport error"))]
  | fuel + 1, r :: oracleRest, items, k =>
      TraceEntry.remoteCall items ::
      match r with
      | .error msg => [.yielded (.assistantMsg (errWrap msg))]
      | .ok output =>
          if output = [] then
            [.yielded (.assistantMsg (errWrap "No output from model"))]
          else
            match processOutput cb shot output items false with
            | (trace, _, _, some msg) =>
                trace ++ [.yielded (.assistantMsg (errWrap msg))]
            | (trace, items2, cont, none) =>
                trace ++
                if stop k then
                  [.remoteCall (items2 ++ [stopRequestItem]),
                   .yielded (.assistantMsg stoppedMsg)]
                else if cont then
                  runLoop cb shot stop fuel oracleRest items2 (k + 1)
                else []

/-- Model of `Agent.run_conversation(user_input)`: the pending buffer starts with the
single user item; the fuel is large enough for the whole oracle. -/
def runConversation (cb : String → Bool) (shot : String) (stop : Nat → Bool)
    (oracle : List (Except String (List OutputItem))) (userInput : String) :
    List TraceEntry :=
  runLoop cb shot stop (oracle.length + 1) oracle [.message "user" userInput] 0

/-- Flattening a list of singleton lists is a map. -/
theorem flatten_map_singleton {α β : Type} (f : α → β) (l : List α) :
    (l.map (fun a => [f a])).flatten = l.map f := by
  induction l with
  | nil => rfl
  | cons a l ih => simp only [List.map_cons, List.flatten_cons, ih]; rfl

/-- The wheel-click loop emits exactly its count of identical clicks. -/
theorem scrollClickLoop_eq_replicate (b : Nat) (n : Nat) :
    scrollClickLoop b n = List.replicate n (XEvent.click b) := by
  induction n with
  | zero => rfl
  | succ n ih => simp [scrollClickLoop, ih, List.replicate_succ]

/-- A value found by association-list lookup occurs among the values. -/
theorem lookup_mem_snd {l : List (String × String)} {k v : String}
    (h : l.lookup k = some v) : v ∈ l.map Prod.snd := by
  induction l with
  | nil => simp [List.lookup] at h
  | cons p rest ih =>
    obtain ⟨pk, pv⟩ := p
    rw [List.lookup] at h
    cases hk : (k == pk) with
    | true => rw [hk] at h; simp at h; simp [h]
    | false =>
        rw [hk] at h; simp at h
        exact List.mem_cons_of_mem _ (ih h)

/-- No value of the key table is itself a key of the table. -/
theorem keyMapping_values_lookup_none :
    ∀ v ∈ keyMapping.map Prod.snd, keyMapping.lookup v = none := by decide

/-- Tracking the pointer through a block of moves lands on the last point. -/
theorem foldl_pointerStep_moves (rest : List Point) (px py : Int) :
    List.foldl pointerStep (some (px, py))
        (rest.map (fun p => XEvent.mouseMove p.x p.y)) =
      some ((rest.getLastD ⟨px, py⟩).x, (rest.getLastD ⟨px, py⟩).y) := by
  induction rest generalizing px py with
  | nil => rfl
  | cons q qs ih =>
      simp only [List.map_cons, List.foldl_cons, pointerStep, List.getLastD_cons]
      exact ih q.x q.y

/-- C7: a scroll first moves the pointer to the target, then issues exactly
natAbs of the vertical delta wheel clicks, button 4 (scroll up) for a
negative delta and button 5 (scroll down) for a positive one, and the
horizontal delta produces no scrolling; in particular a delta of -3 at
(5,5) gives one move then three scroll-up clicks, and a delta of 2 gives
two scroll-down clicks. -/
theorem scroll_translation :
    scrollEvents 5 5 0 (-3) =
      [.mouseMove 5 5, .click 4, .click 4, .click 4] ∧
    scrollEvents 5 5 0 2 = [.mouseMove 5 5, .click 5, .click 5] ∧
    (∀ x y sx sy : Int, scrollEvents x y sx sy =
      XEvent.mouseMove x y ::
        List.replicate sy.natAbs (XEvent.click (if sy < 0 then 4 else 5))) ∧
    (∀ x y sx sx2 sy : Int, scrollEvents x y sx sy = scrollEvents x y sx2 sy) := by
  refine ⟨rfl, rfl, ?_, ?_⟩
  · intro x y sx sy
    simp [scrollEvents, scrollClickLoop_eq_replicate]
  · intro x y sx sx2 sy
    rfl

/-- C10: a click whose button name is not left, middle or right is executed
with native button 1 (a left click), while normalization passes the unknown
button name through unchanged. -/
theorem click_unknown_button (x y : Int) (b : String)
    (h : ¬(b = "left" ∨ b = "middle" ∨ b = "right")) :
    buttonToNative b = 1 ∧
    clickEvents x y b = [.mouseMove x y, .click 1] ∧
    extractParams { type := "click", x := some x, y := some y, button := some b } =
      .ok (.click x y b) := by
  push_neg at h
  obtain ⟨h1, h2, h3⟩ := h
  have e1 : (b == "left") = false := beq_eq_false_iff_ne.mpr h1
  have e2 : (b == "middle") = false := beq_eq_false_iff_ne.mpr h2
  have e3 : (b == "right") = false := beq_eq_false_iff_ne.mpr h3
  have hb : buttonToNative b = 1 := by
    simp [buttonToNative, buttonMap, List.lookup, e1, e2, e3]
  exact ⟨hb, by simp [clickEvents, hb], rfl⟩

/-- Closed instance of the C10 theorem at the unknown button name "back". -/
theorem click_unknown_button_witness :
    buttonToNative "back" = 1 ∧
    clickEvents 7 9 "back" = [.mouseMove 7 9, .click 1] ∧
    extractParams { type := "click", x := some 7, y := some 9, button := some "back" } =
      .ok (.click 7 9 "back") :=
  click_unknown_button 7 9 "back" (by decide)

/-- C9: key translation is pure and idempotent, names outside the fixed
table pass through unchanged on every application, and a list of keys is
issued as one single chorded keypress joined by the plus combinator. -/
theorem key_mapping_idempotent :
    (∀ k, mapKey (mapKey k) = mapKey k) ∧
    (∀ k, keyMapping.lookup k = none → mapKey k = k) ∧
    (∀ ks, ∃ combo, keypressEvents ks = [XEvent.key combo]) ∧
    keypressEvents ["CTRL", "ALT", "DELETE"] = [XEvent.key "ctrl+alt+Delete"] := by
  refine ⟨?_, ?_, ?_, rfl⟩
  · intro k
    cases h : keyMapping.lookup k with
    | none => simp [mapKey, h]
    | some v =>
        have hv : keyMapping.lookup v = none :=
          keyMapping_values_lookup_none v (lookup_mem_snd h)
        simp [mapKey, h, hv]
  · intro k h
    simp [mapKey, h]
  · intro ks
    exact ⟨_, rfl⟩

/-- Closed instance of the C9 theorem: double application on a mapped name
and passthrough of the unknown name F5. -/
theorem key_mapping_idempotent_witness :
    mapKey (mapKey "ENTER") = mapKey "ENTER" ∧ mapKey "F5" = "F5" :=
  ⟨key_mapping_idempotent.1 "ENTER", key_mapping_idempotent.2.1 "F5" (by decide)⟩

/-- C6: a drag over a non-empty path presses button 1 at the first point,
moves to each subsequent point in order, and releases with the pointer at
the last point; the three-point example executes press, move, move, release
in order. -/
theorem drag_roundtrip (p0 : Point) (rest : List Point) :
    dragEvents (p0 :: rest) =
      [XEvent.mouseMove p0.x p0.y, XEvent.mouseDown 1] ++
        rest.map (fun p => XEvent.mouseMove p.x p.y) ++ [XEvent.mouseUp 1] ∧
    finalPointer (dragEvents (p0 :: rest)) =
      some ((rest.getLastD p0).x, (rest.getLastD p0).y) ∧
    dragEvents [⟨0, 0⟩, ⟨10, 10⟩, ⟨20, 5⟩] =
      [.mouseMove 0 0, .mouseDown 1, .mouseMove 10 10, .mouseMove 20 5, .mouseUp 1] := by
  have hshape : dragEvents (p0 :: rest) =
      [XEvent.mouseMove p0.x p0.y, XEvent.mouseDown 1] ++
        rest.map (fun p => XEvent.mouseMove p.x p.y) ++ [XEvent.mouseUp 1] := by
    simp [dragEvents, flatten_map_singleton]
  refine ⟨hshape, ?_, rfl⟩
  rw [hshape]
  simp only [finalPointer, List.foldl_append, List.foldl_cons, List.foldl_nil]
  rw [show pointerStep (pointerStep none (XEvent.mouseMove p0.x p0.y))
        (XEvent.mouseDown 1) = some (p0.x, p0.y) from rfl]
  rw [foldl_pointerStep_moves]
  rfl

/-- When every probed port is busy, the loop walks past all of them and ends
one past the last probe. -/
theorem findPortLoop_all_busy (occ : Nat → Bool) :
    ∀ n port, (∀ i, i < n → occ (port + i) = true) →
      findPortLoop occ n port = port + n := by
  intro n
  induction n with
  | zero => intro port _; rfl
  | succ n ih =>
      intro port h
      have h0 : occ port = true := by simpa using h 0 (Nat.succ_pos n)
      have hrest : ∀ i, i < n → occ (port + 1 + i) = true := by
        intro i hi
        have := h (i + 1) (by omega)
        simpa [Nat.add_assoc, Nat.add_comm 1 i] using this
      simp only [findPortLoop, h0, if_true, ih (port + 1) hrest]
      omega

/-- When a free port exists within the probe window, the loop stops at the
lowest free port at or above the start, inside the window. -/
theorem findPortLoop_least (occ : Nat → Bool) :
    ∀ n port, (∃ i, i < n ∧ occ (port + i) = false) →
      occ (findPortLoop occ n port) = false ∧
      port ≤ findPortLoop occ n port ∧
      findPortLoop occ n port < port + n ∧
      ∀ q, port ≤ q → q < findPortLoop occ n port → occ q = true := by
  intro n
  induction n with
  | zero => intro port h; obtain ⟨i, hi, _⟩ := h; omega
  | succ n ih =>
      intro port h
      cases h0 : occ port with
      | false =>
          have hstop : findPortLoop occ (n + 1) port = port := by
            simp [findPortLoop, h0]
          rw [hstop]
          exact ⟨h0, le_refl _, by omega, fun q hq1 hq2 => absurd hq2 (by omega)⟩
      | true =>
          obtain ⟨i, hi, hfree⟩ := h
          have hi0 : i ≠ 0 := by
            intro hi0
            rw [hi0] at hfree
            simp [h0] at hfree
          obtain ⟨j, rfl⟩ : ∃ j, i = j + 1 := ⟨i - 1, by omega⟩
          have hex : ∃ i2, i2 < n ∧ occ (port + 1 + i2) = false :=
            ⟨j, by omega, by
              have : port + 1 + j = port + (j + 1) := by omega
              rw [this]; exact hfree⟩
          obtain ⟨c1, c2, c3, c4⟩ := ih (port + 1) hex
          have hstep : findPortLoop occ (n + 1) port = findPortLoop occ n (port + 1) := by
            simp [findPortLoop, h0]
          refine ⟨by rw [hstep]; exact c1, by omega, by omega, ?_⟩
          intro q hq1 hq2
          rcases Nat.eq_or_lt_of_le hq1 with hq | hq
          · rw [← hq]; exact h0
          · exact c4 q (by omega) (by rw [← hstep]; exact hq2)

/-- C5 (amended): probing starts at the preferred port and runs at most 10
attempts; whenever some probed port in the window is free, the function
returns the lowest free port at or above the preferred one; if every probe
finds the port busy (or errors), it returns preferred + 10, the value one
past the last tried port. -/
theorem port_selection (occ : Nat → Bool) (p : Nat) :
    ((∃ i, i < 10 ∧ occ (p + i) = false) →
      occ (findAvailablePort occ p) = false ∧
      p ≤ findAvailablePort occ p ∧
      findAvailablePort occ p < p + 10 ∧
      ∀ q, p ≤ q → q < findAvailablePort occ p → occ q = true) ∧
    ((∀ i, i < 10 → occ (p + i) = true) → findAvailablePort occ p = p + 10) := by
  constructor
  · intro h
    exact findPortLoop_least occ 10 p h
  · intro h
    exact findPortLoop_all_busy occ 10 p h

/-- Closed instance of the C5 theorem: with every port free the preferred
port itself is returned; with every port busy the fallback is 5910. -/
theorem port_selection_witness :
    findAvailablePort (fun _ => false) 5900 = 5900 ∧
    findAvailablePort (fun _ => true) 5900 = 5910 := by
  constructor
  · obtain ⟨-, hle, -, hmin⟩ :=
      (port_selection (fun _ => false) 5900).1 ⟨0, by omega, rfl⟩
    by_contra hne
    have hlt : 5900 < findAvailablePort (fun _ => false) 5900 := by omega
    simpa using hmin 5900 (le_refl _) hlt
  · exact (port_selection (fun _ => true) 5900).2 (fun i _ => rfl)

/-- Counterexample to C5 as stated: with every port busy the ports actually
tried are 5900 through 5909, yet the function returns 5910, a value that was
never tried — not the last tried port 5909. -/
theorem port_selection_counterexample :
    findAvailablePort (fun _ => true) 5900 = 5910 ∧
    probedPorts (fun _ => true) 10 5900 =
      [5900, 5901, 5902, 5903, 5904, 5905, 5906, 5907, 5908, 5909] ∧
    (probedPorts (fun _ => true) 10 5900).getLastD 0 = 5909 ∧
    5910 ∉ probedPorts (fun _ => true) 10 5900 := by
  refine ⟨rfl, rfl, rfl, by decide⟩

/-- C4 (amended): the wait duration is chosen by the fixed precedence nested
params.ms, then direct ms, then nested params.time, then direct time, with
default 1000 when none is present; a request with only time = 250
normalizes to 250 ms. -/
theorem wait_precedence (a : RawAction) :
    waitMs a = waitMsSpecNestedFirst a ∧
    waitMs { type := "wait", time := some 250 } = 250 ∧
    waitMs { type := "wait" } = 1000 ∧
    extractParams { type := "wait", time := some 250 } = .ok (.wait 250) ∧
    extractParams { type := "wait" } = .ok (.wait 1000) := by
  refine ⟨?_, rfl, rfl, rfl, rfl⟩
  obtain ⟨t, x, y, btn, txt, ks, sx, sy, ph, m, ti, pr⟩ := a
  cases pr with
  | none =>
      cases m <;> cases ti <;> rfl
  | some p =>
      obtain ⟨pms, ptime⟩ := p
      cases pms <;> cases m <;> cases ptime <;> cases ti <;> rfl

/-- Counterexample to C4 as stated: with both a direct ms = 5 and a nested
params.ms = 7 present, the code selects the nested value 7, while the
direct-first precedence of the claim would select 5. -/
theorem wait_precedence_counterexample :
    waitMs { type := "wait", ms := some 5, params := some { ms := some 7 } } = 7 ∧
    waitMsSpecDirectFirst
      { type := "wait", ms := some 5, params := some { ms := some 7 } } = 5 ∧
    extractParams { type := "wait", ms := some 5, params := some { ms := some 7 } } =
      .ok (.wait 7) ∧
    (7 : Int) ≠ 5 := by
  refine ⟨rfl, rfl, rfl, by decide⟩

/-- Splitting never yields an empty group list. -/
theorem splitOnChar_ne_nil (sep : Char) (cs : List Char) :
    splitOnChar sep cs ≠ [] := by
  cases cs with
  | nil => simp [splitOnChar]
  | cons c cs =>
      simp only [splitOnChar]
      split
      · simp
      · split <;> simp

/-- Splitting on a separator yields one more group than separator
occurrences. -/
theorem splitOnChar_length (sep : Char) (cs : List Char) :
    (splitOnChar sep cs).length = cs.count sep + 1 := by
  induction cs with
  | nil => simp [splitOnChar]
  | cons c cs ih =>
      simp only [splitOnChar]
      by_cases hc : c = sep
      · have hb : (c == sep) = true := beq_iff_eq.mpr hc
        simp [hc, List.count_cons, hb, ih]
      · have hb : (c == sep) = false := beq_eq_false_iff_ne.mpr hc
        rw [if_neg hc]
        cases hr : splitOnChar sep cs with
        | nil => exact absurd hr (splitOnChar_ne_nil sep cs)
        | cons g gs =>
            rw [hr] at ih
            simp only [List.length_cons] at ih ⊢
            simp [List.count_cons, hb, ih]

/-- Typing one line issues no Return keypress. -/
theorem countReturn_typeLineEvents (l : String) :
    countReturn (typeLineEvents l) = 0 := by
  unfold countReturn typeLineEvents
  split <;> rfl

/-- Each line after the first contributes exactly one Return keypress. -/
theorem countReturn_flat_aux (ls : List String) :
    countReturn ((ls.map (fun l2 =>
        [XEvent.key "Return", XEvent.sleep 100] ++ typeLineEvents l2)).flatten) =
      ls.length := by
  induction ls with
  | nil => rfl
  | cons l ls ih =>
      simp only [List.map_cons, List.flatten_cons, countReturn, List.countP_append] at ih ⊢
      rw [ih]
      have h1 : List.countP isReturn [XEvent.key "Return", XEvent.sleep 100] = 1 := rfl
      have h2 : List.countP isReturn (typeLineEvents l) = 0 :=
        countReturn_typeLineEvents l
      simp only [List.countP_append, h1, h2, List.length_cons]
      omega

/-- In the multi-line branch the Return count is the line count minus one. -/
theorem countReturn_typeLinesEvents (lines : List String) :
    countReturn (typeLinesEvents lines) = lines.length - 1 := by
  cases lines with
  | nil => rfl
  | cons l ls =>
      simp only [typeLinesEvents, countReturn, List.countP_append]
      have h1 : List.countP isReturn (typeLineEvents l) = 0 :=
        countReturn_typeLineEvents l
      have h2 := countReturn_flat_aux ls
      simp only [countReturn] at h2
      rw [h1, h2]
      simp

/-- The typed literals of one line: nothing for the empty line, the escaped
line otherwise. -/
theorem typedLiterals_typeLineEvents (l : String) :
    typedLiterals (typeLineEvents l) = if l = "" then [] else [escapeSingle l] := by
  unfold typedLiterals typeLineEvents
  split <;> rfl

/-- The typed literals of the Return-prefixed blocks are the escaped
nonempty lines, in order. -/
theorem typedLiterals_flat_aux (ls : List String) :
    typedLiterals ((ls.map (fun l2 =>
        [XEvent.key "Return", XEvent.sleep 100] ++ typeLineEvents l2)).flatten) =
      (ls.filter fun l => !(l == "")).map escapeSingle := by
  induction ls with
  | nil => rfl
  | cons l ls ih =>
      simp only [List.map_cons, List.flatten_cons, typedLiterals,
        List.filterMap_append] at ih ⊢
      rw [ih]
      have h1 : List.filterMap typedOf [XEvent.key "Return", XEvent.sleep 100] = [] := rfl
      have h2 := typedLiterals_typeLineEvents l
      simp only [typedLiterals] at h2
      by_cases hl : l = ""
      · subst hl
        have h2e : List.filterMap typedOf (typeLineEvents "") = [] := rfl
        simp [h1, h2e, List.filter_cons]
      · have hb : (l == "") = false := beq_eq_false_iff_ne.mpr hl
        simp [h1, h2, hl, List.filter_cons, hb]

/-- The typed literals of the multi-line branch are exactly the escaped
nonempty lines, in order. -/
theorem typedLiterals_typeLinesEvents (lines : List String) :
    typedLiterals (typeLinesEvents lines) =
      (lines.filter fun l => !(l == "")).map escapeSingle := by
  cases lines with
  | nil => rfl
  | cons l ls =>
      simp only [typeLinesEvents, typedLiterals, List.filterMap_append]
      have h1 := typedLiterals_typeLineEvents l
      simp only [typedLiterals] at h1
      have h2 := typedLiterals_flat_aux ls
      simp only [typedLiterals] at h2
      rw [h1, h2]
      by_cases hl : l = ""
      · simp [hl, List.filter_cons]
      · have hb : (l == "") = false := beq_eq_false_iff_ne.mpr hl
        simp [hl, List.filter_cons, hb]

/-- C8 (amended): the text is split on line breaks and n embedded line
breaks yield exactly n Return presses; the typed literals are exactly the
shell-escaped nonempty lines in order, so embedded line breaks are
preserved as Return presses between the typed lines; in the multi-line
branch a 100 ms settling delay follows each typed line and each Return (as
the concrete two-break example shows), but text without a line break is
typed as a single escaped literal with no settling delay; empty text is
allowed. -/
theorem type_translation (text : String) :
    countReturn (typeEvents text) = text.data.count (Char.ofNat 10) ∧
    typedLiterals (typeEvents text) =
      (if containsNl text then (splitLines text).filter (fun l => !(l == ""))
       else [text]).map escapeSingle ∧
    (containsNl text = false → typeEvents text = [.typeText (escapeSingle text)]) ∧
    typeEvents ("a" ++ nlStr ++ nlStr ++ "b") =
      [.typeText "a", .sleep 100, .key "Return", .sleep 100, .key "Return",
       .sleep 100, .typeText "b", .sleep 100] ∧
    typeEvents "" = [.typeText ""] := by
  refine ⟨?_, ?_, ?_, rfl, rfl⟩
  · unfold typeEvents
    cases hc : containsNl text with
    | true =>
        simp only [if_true]
        rw [countReturn_typeLinesEvents]
        have hlen : (splitLines text).length = text.data.count (Char.ofNat 10) + 1 := by
          simp [splitLines, splitOnChar_length]
        rw [hlen]
        omega
    | false =>
        simp only [Bool.false_eq_true, if_false]
        have hnm : Char.ofNat 10 ∉ text.data := by
          intro hm
          have helem := List.elem_eq_true_of_mem hm
          simp only [containsNl, List.contains] at hc
          rw [helem] at hc
          exact Bool.true_eq_false.mp hc
        rw [List.count_eq_zero.mpr hnm]
        rfl
  · unfold typeEvents
    cases hc : containsNl text with
    | true =>
        simp only [if_true]
        exact typedLiterals_typeLinesEvents (splitLines text)
    | false =>
        simp only [Bool.false_eq_true, if_false]
        rfl
  · intro h
    unfold typeEvents
    rw [h]
    simp

/-- Closed instance of the C8 theorem: single-line text types one escaped
literal. -/
theorem type_translation_witness :
    containsNl "abc" = false ∧
    typeEvents "abc" = [XEvent.typeText (escapeSingle "abc")] :=
  ⟨rfl, (type_translation "abc").2.2.1 rfl⟩

/-- Counterexample to C8 as stated: the single-line text abc is typed with
no settling delay at all, so no delay follows the typed line. -/
theorem type_no_delay_counterexample :
    typeEvents "abc" = [XEvent.typeText "abc"] ∧
    XEvent.sleep 100 ∉ typeEvents "abc" := by
  refine ⟨rfl, by decide⟩

/-- C2 (amended): minimally valid parameters always normalize successfully
for all eight kinds; a missing required field raises an error whose message
names the kind for click, double_click, type, keypress, drag, and for
scroll missing its deltas — but a scroll request with deltas present and a
coordinate missing raises a generic attribute error that does not name the
kind; any other kind raises a hard unknown-action-type error. -/
theorem normalization_totality (a : RawAction) :
    (a.type = "click" → a.x.isSome → a.y.isSome → ∃ v, extractParams a = .ok v) ∧
    (a.type = "double_click" → a.x.isSome → a.y.isSome →
      ∃ v, extractParams a = .ok v) ∧
    (a.type = "type" → a.text.isSome → ∃ v, extractParams a = .ok v) ∧
    (a.type = "keypress" → a.keys.isSome → ∃ v, extractParams a = .ok v) ∧
    (a.type = "scroll" → a.x.isSome → a.y.isSome → a.scroll_x.isSome →
      a.scroll_y.isSome → ∃ v, extractParams a = .ok v) ∧
    (a.type = "drag" → (∃ p ps, a.path = some (p :: ps)) →
      ∃ v, extractParams a = .ok v) ∧
    (a.type = "wait" → extractParams a = .ok (.wait (waitMs a))) ∧
    (a.type = "screenshot" → extractParams a = .ok .screenshot) ∧
    (a.type = "click" → ¬(a.x.isSome ∧ a.y.isSome) →
      ∃ m, extractParams a = .error m ∧ "click".data <:+: m.data) ∧
    (a.type = "double_click" → ¬(a.x.isSome ∧ a.y.isSome) →
      ∃ m, extractParams a = .error m ∧ "double_click".data <:+: m.data) ∧
    (a.type = "type" → a.text = none →
      ∃ m, extractParams a = .error m ∧ "type".data <:+: m.data) ∧
    (a.type = "keypress" → a.keys = none →
      ∃ m, extractParams a = .error m ∧ "keypress".data <:+: m.data) ∧
    (a.type = "drag" → (a.path = none ∨ a.path = some []) →
      ∃ m, extractParams a = .error m ∧ "drag".data <:+: m.data) ∧
    (a.type = "scroll" → ¬(a.scroll_x.isSome ∧ a.scroll_y.isSome) →
      ∃ m, extractParams a = .error m ∧ "scroll".data <:+: m.data) ∧
    (a.type = "scroll" → a.scroll_x.isSome → a.scroll_y.isSome → a.x = none →
      extractParams a = .error (attrError "x") ∧
        ¬("scroll".data <:+: (attrError "x").data)) ∧
    (a.type ∉ ["click", "type", "keypress", "scroll", "double_click", "drag",
        "wait", "screenshot"] →
      extractParams a = .error ("Unknown action type: " ++ a.type)) := by
  refine ⟨?_, ?_, ?_, ?_, ?_, ?_, ?_, ?_, ?_, ?_, ?_, ?_, ?_, ?_, ?_, ?_⟩
  · intro ht hx hy
    obtain ⟨x, hx⟩ := Option.isSome_iff_exists.mp hx
    obtain ⟨y, hy⟩ := Option.isSome_iff_exists.mp hy
    exact ⟨.click x y (a.button.getD "left"), by simp [extractParams, ht, hx, hy]⟩
  · intro ht hx hy
    obtain ⟨x, hx⟩ := Option.isSome_iff_exists.mp hx
    obtain ⟨y, hy⟩ := Option.isSome_iff_exists.mp hy
    exact ⟨.double_click x y, by simp [extractParams, ht, hx, hy]⟩
  · intro ht htext
    obtain ⟨t, htext⟩ := Option.isSome_iff_exists.mp htext
    exact ⟨.typeText t, by simp [extractParams, ht, htext]⟩
  · intro ht hk
    obtain ⟨kf, hk⟩ := Option.isSome_iff_exists.mp hk
    cases kf with
    | bare k => exact ⟨.keypress [k], by simp [extractParams, ht, hk]⟩
    | list ks => exact ⟨.keypress ks, by simp [extractParams, ht, hk]⟩
  · intro ht hx hy hsx hsy
    obtain ⟨x, hx⟩ := Option.isSome_iff_exists.mp hx
    obtain ⟨y, hy⟩ := Option.isSome_iff_exists.mp hy
    obtain ⟨sx, hsx⟩ := Option.isSome_iff_exists.mp hsx
    obtain ⟨sy, hsy⟩ := Option.isSome_iff_exists.mp hsy
    exact ⟨.scroll x y sx sy, by simp [extractParams, ht, hx, hy, hsx, hsy]⟩
  · intro ht hpath
    obtain ⟨p, ps, hpath⟩ := hpath
    exact ⟨.drag (p :: ps), by simp [extractParams, ht, hpath]⟩
  · intro ht
    simp [extractParams, ht]
  · intro ht
    simp [extractParams, ht]
  · intro ht h
    refine ⟨"Could not extract coordinates for click action", ?_, by decide⟩
    cases hx : a.x with
    | none => simp [extractParams, ht, hx]
    | some x =>
        have hy : a.y = none := by
          cases hy : a.y with
          | none => rfl
          | some y => exact absurd ⟨by simp [hx], by simp [hy]⟩ h
        simp [extractParams, ht, hx, hy]
  · intro ht h
    refine ⟨"Could not extract coordinates for double_click action", ?_, by decide⟩
    cases hx : a.x with
    | none => simp [extractParams, ht, hx]
    | some x =>
        have hy : a.y = none := by
          cases hy : a.y with
          | none => rfl
          | some y => exact absurd ⟨by simp [hx], by simp [hy]⟩ h
        simp [extractParams, ht, hx, hy]
  · intro ht htext
    exact ⟨"Could not extract text for type action",
      by simp [extractParams, ht, htext], by decide⟩
  · intro ht hk
    exact ⟨"Could not extract keys for keypress action",
      by simp [extractParams, ht, hk], by decide⟩
  · intro ht hpath
    refine ⟨"Could not extract path for drag action", ?_, by decide⟩
    cases hpath with
    | inl hnone => simp [extractParams, ht, hnone]
    | inr hnil => simp [extractParams, ht, hnil]
  · intro ht h
    refine ⟨"Could not extract scroll parameters", ?_, by decide⟩
    cases hsx : a.scroll_x with
    | none => simp [extractParams, ht, hsx]
    | some sx =>
        have hsy : a.scroll_y = none := by
          cases hsy : a.scroll_y with
          | none => rfl
          | some sy => exact absurd ⟨by simp [hsx], by simp [hsy]⟩ h
        simp [extractParams, ht, hsx, hsy]
  · intro ht hsx hsy hxn
    obtain ⟨sx, hsx⟩ := Option.isSome_iff_exists.mp hsx
    obtain ⟨sy, hsy⟩ := Option.isSome_iff_exists.mp hsy
    exact ⟨by simp [extractParams, ht, hsx, hsy, hxn, attrError], by decide⟩
  · intro h
    simp only [List.mem_cons, List.not_mem_nil, or_false, not_or] at h
    obtain ⟨h1, h2, h3, h4, h5, h6, h7, h8⟩ := h
    simp [extractParams, h1, h2, h3, h4, h5, h6, h7, h8]

/-- Closed instance of the C2 theorem: a minimally valid click normalizes,
and an unsupported kind is a hard error. -/
theorem normalization_totality_witness :
    (∃ v, extractParams { type := "click", x := some 3, y := some 4 } = .ok v) ∧
    extractParams { type := "fly" } = .error ("Unknown action type: " ++ "fly") := by
  constructor
  · exact (normalization_totality { type := "click", x := some 3, y := some 4 }).1
      rfl rfl rfl
  · have h := normalization_totality { type := "fly" }
    exact h.2.2.2.2.2.2.2.2.2.2.2.2.2.2.2 (by decide)

/-- Counterexample to C2 as stated: a scroll request carrying both deltas
but no x coordinate raises an attribute error whose message does not name
the kind scroll. -/
theorem normalization_counterexample :
    extractParams { type := "scroll", scroll_x := some 1, scroll_y := some 1 } =
      .error (attrError "x") ∧
    ¬("scroll".data <:+: (attrError "x").data) :=
  ⟨rfl, by decide⟩

/-- If some check is declined, the scan finds a declined message, and it is
the message of one of the checks. -/
theorem findRefused_of_exists (cb : String → Bool) :
    ∀ checks : List SafetyCheck,
      (∃ c ∈ checks, cb (checkMessage c) = false) →
      ∃ m, findRefused cb checks = some m ∧ cb m = false ∧
        ∃ c ∈ checks, checkMessage c = m := by
  intro checks
  induction checks with
  | nil => rintro ⟨c, hc, -⟩; exact absurd hc (List.not_mem_nil c)
  | cons c0 rest ih =>
      rintro ⟨c, hc, hcb⟩
      cases h0 : cb (checkMessage c0) with
      | false =>
          exact ⟨checkMessage c0, by simp [findRefused, h0], h0,
            c0, List.mem_cons_self c0 rest, rfl⟩
      | true =>
          have hcrest : c ∈ rest := by
            rcases List.mem_cons.mp hc with rfl | hr
            · rw [h0] at hcb; exact absurd hcb (by simp)
            · exact hr
          obtain ⟨m, hfind, hm, c2, hc2, hmsg⟩ := ih ⟨c, hcrest, hcb⟩
          exact ⟨m, by simp [findRefused, h0, hfind], hm,
            c2, List.mem_cons_of_mem c0 hc2, hmsg⟩

/-- C3: if an executed action carries pending safety checks and the policy
callback declines one of their messages, handle_item raises an error naming
that exact message text instead of returning a call output for the model. -/
theorem safety_refusal (cb : String → Bool) (shot : String) (c : ComputerCallItem)
    (hok : ∃ na, extractParams c.action = .ok na)
    (href : ∃ ch ∈ c.pending_safety_checks, cb (checkMessage ch) = false) :
    ∃ m, cb m = false ∧
      (∃ ch ∈ c.pending_safety_checks, checkMessage ch = m) ∧
      handleItem cb shot c = .error (safetyErrMsg m) := by
  obtain ⟨na, hna⟩ := hok
  obtain ⟨m, hfind, hm, hmem⟩ := findRefused_of_exists cb c.pending_safety_checks href
  exact ⟨m, hm, hmem, by simp [handleItem, hna, hfind]⟩

/-- Closed instance of the C3 theorem: a single pending check whose message
is declined by an always-refusing policy aborts handle_item with an error
naming the message. -/
theorem safety_refusal_witness :
    ∃ m, (fun _ : String => false) m = false ∧
      (∃ ch ∈ sampleUnsafeCall.pending_safety_checks, checkMessage ch = m) ∧
      handleItem (fun _ => false) "img" sampleUnsafeCall =
        .error (safetyErrMsg m) :=
  safety_refusal (fun _ => false) "img" sampleUnsafeCall
    ⟨.screenshot, rfl⟩
    ⟨{ message := some "Download file" }, by simp [sampleUnsafeCall], rfl⟩

/-- C1: when the stop callback fires at the checkpoint after the items of a
successfully processed response, the loop appends the synthetic operation
stopped user item, performs exactly one flush exchange whose outcome cannot
affect the trace (its own failure is swallowed), yields the final assistant
message Conversation stopped by user, and terminates with no further remote
calls, whatever responses remain scripted. -/
theorem stop_semantics (cb : String → Bool) (shot : String) (stop : Nat → Bool)
    (fuel : Nat) (output : List OutputItem)
    (rest : List (Except String (List OutputItem)))
    (items items2 : List Item) (k : Nat) (trace : List TraceEntry) (cont : Bool)
    (hout : output ≠ [])
    (hstop : stop k = true)
    (hproc : processOutput cb shot output items false = (trace, items2, cont, none)) :
    runLoop cb shot stop (fuel + 1) (.ok output :: rest) items k =
      TraceEntry.remoteCall items :: trace ++
        [TraceEntry.remoteCall (items2 ++ [stopRequestItem]),
         TraceEntry.yielded (.assistantMsg stoppedMsg)] := by
  simp only [runLoop]
  rw [hproc]
  simp [hout, hstop]

/-- Closed instance of the C1 theorem: a text-only response under an active
stop signal produces main call, assistant yield, one flush call carrying
the stop item, and the final stopped message. -/
theorem stop_semantics_witness :
    runLoop (fun _ => true) "img" (fun _ => true) 1
        [.ok [.assistant "done"]] [.message "user" "hi"] 0 =
      [TraceEntry.remoteCall [.message "user" "hi"],
       TraceEntry.yielded (.assistantMsg "done"),
       TraceEntry.remoteCall [.message "user" "hi", stopRequestItem],
       TraceEntry.yielded (.assistantMsg stoppedMsg)] :=
  stop_semantics (fun _ => true) "img" (fun _ => true) 0 [.assistant "done"] []
    [.message "user" "hi"] [.message "user" "hi"] 0
    [TraceEntry.yielded (.assistantMsg "done")] false
    (by simp) rfl rfl

end ComputerUse
